import Mathlib

/-!
Shallow embedding of the client-side ledger of the Golden Digital Gold
application (src/index.tsx) together with proofs about its operations.

Money and gold amounts are JavaScript numbers in the source; they are
modelled as rationals (ℚ).  Timestamps produced by Date.now() and stored
(as ISO strings) in Transaction.date are modelled as natural numbers
holding the epoch milliseconds, which is exactly what the source compares
with getTime().  The mutable React state (users record, transactions
array) is modelled as an explicit AppState value threaded through the
handlers; each handler is translated directly from the corresponding
function of src/index.tsx.
-/

namespace GoldenEquip

attribute [local semireducible] Rat.add Rat.mul Rat.sub Rat.inv Rat.ofScientific

/-- Role of a user (src/index.tsx, interface User, field role). -/
inductive Role where
  | user
  | admin
deriving DecidableEq, Repr, BEq

/-- Transaction type (src/index.tsx, interface Transaction, field type). -/
inductive TxType where
  | conversion
  | transfer_in
  | transfer_out
  | withdrawal
  | loan
  | guarantee_provided
  | loan_repayment
  | referral_bonus
deriving DecidableEq, Repr, BEq

/-- Transaction status (src/index.tsx, interface Transaction, field status). -/
inductive TxStatus where
  | completed
  | pending
  | failed
deriving DecidableEq, Repr, BEq

/-- Admin decision passed to handleApproval (src/index.tsx, handleApproval). -/
inductive Decision where
  | approve
  | reject
deriving DecidableEq, Repr, BEq

/-- Errors surfaced by the modal validation code (setError calls in the modals). -/
inductive LedgerError where
  | validationError (msg : String)
deriving DecidableEq, Repr

/-- User record (src/index.tsx, interface User).  Balances are rationals. -/
structure User where
  id : String
  name : String
  phone : String
  email : String
  role : Role
  goldBalance : ℚ
  etbBalance : ℚ
  guaranteedGrams : ℚ
  referralCode : String
  joinDate : String
deriving DecidableEq, Repr

/-- Transaction record (src/index.tsx, interface Transaction).  The optional
display fields from/to of the source are called fromName/toName because
from is a reserved word in Lean.  The date is the epoch-millisecond value
of the stored ISO timestamp. -/
structure Transaction where
  id : String
  date : ℕ
  type : TxType
  amountGrams : ℚ
  amountETB : Option ℚ
  fromName : Option String
  toName : Option String
  status : TxStatus
  userId : String
deriving DecidableEq, Repr

/-- Whole mutable ledger state: the users record and the transactions array
of the App component (useLocalStorage state in src/index.tsx). -/
@[ext] structure AppState where
  users : List User
  transactions : List Transaction
deriving DecidableEq, Repr

/-- BASE_GOLD_PRICE_ETB = 7950.25 (src/index.tsx). -/
def BASE_GOLD_PRICE_ETB : ℚ := 7950.25

/-- LOAN_TO_VALUE_RATIO = 0.5 (src/index.tsx). -/
def LOAN_TO_VALUE_RATIO : ℚ := 0.5

/-- LOAN_COMMISSION_RATE = 0.05 (src/index.tsx). -/
def LOAN_COMMISSION_RATE : ℚ := 0.05

/-- Id given to a transaction created by handleNewTransaction:
the template string tx_${Date.now()}. -/
def mkTxId (now : ℕ) : String := "tx_" ++ toString now

/-- Lookup of users[uid]: the users record is keyed by user id. -/
def findUser (users : List User) (uid : String) : Option User :=
  users.find? (fun u => u.id == uid)

/-- Gold balance of users[uid] (0 when the user is absent). -/
def goldOf (users : List User) (uid : String) : ℚ :=
  match findUser users uid with
  | some u => u.goldBalance
  | none => 0

/-- ETB balance of users[uid] (0 when the user is absent). -/
def etbOf (users : List User) (uid : String) : ℚ :=
  match findUser users uid with
  | some u => u.etbBalance
  | none => 0

/-- Record assignment updatedUsers[uid] = u' on the users record. -/
def setUser (users : List User) (uid : String) (u' : User) : List User :=
  users.map (fun u => if u.id == uid then u' else u)

/-- Lookup transactions.find(t => t.id === txId). -/
def findTx (txs : List Transaction) (txId : String) : Option Transaction :=
  txs.find? (fun t => t.id == txId)

/-- Insert a transaction into a list that is sorted by date descending,
keeping it sorted.  Together with sortByDateDesc this models the stable
JavaScript sort((a, b) => new Date(b.date).getTime() - new Date(a.date).getTime()). -/
def insertTx (t : Transaction) : List Transaction → List Transaction
  | [] => [t]
  | u :: us => if u.date ≤ t.date then t :: u :: us else u :: insertTx t us

/-- Sort a transaction list by date descending, as the source does after
every append: [newTx, ...prev].sort((a, b) => dateB - dateA). -/
def sortByDateDesc (l : List Transaction) : List Transaction :=
  l.foldr insertTx []

/-- handleNewTransaction of src/index.tsx: guards on a current user, builds
the new transaction with id tx_${Date.now()} and the current date, prepends
it and re-sorts the whole list by date descending.  All of its callers
(buy-gold confirmation, handleWithdraw, handleLoan) pass no from/to fields. -/
def handleNewTransaction (s : AppState) (uid : String) (ty : TxType)
    (amountGrams : ℚ) (amountETB : Option ℚ) (st : TxStatus) (now : ℕ) : AppState :=
  match findUser s.users uid with
  | none => s
  | some _ =>
    let newTx : Transaction :=
      { id := mkTxId now, date := now, type := ty, amountGrams := amountGrams,
        amountETB := amountETB, fromName := none, toName := none, status := st, userId := uid }
    { s with transactions := sortByDateDesc (newTx :: s.transactions) }

/-- The transfer_out record created by handleTransfer. -/
def transferOutTx (sender recipient : User) (amountGrams : ℚ) (now : ℕ) : Transaction :=
  { id := mkTxId now ++ "_out", date := now, type := .transfer_out,
    amountGrams := amountGrams, amountETB := none,
    fromName := some sender.name, toName := some recipient.name,
    status := .completed, userId := sender.id }

/-- The transfer_in record created by handleTransfer. -/
def transferInTx (sender recipient : User) (amountGrams : ℚ) (now : ℕ) : Transaction :=
  { id := mkTxId now ++ "_in", date := now, type := .transfer_in,
    amountGrams := amountGrams, amountETB := none,
    fromName := some sender.name, toName := some recipient.name,
    status := .completed, userId := recipient.id }

/-- handleTransfer of src/index.tsx: debits the sender, credits the
recipient (two record assignments on a copy of the users record), creates
the transfer_out and transfer_in pair and re-sorts the transaction list.
The source reads currentUser and users[recipientId]; a missing sender or
recipient leaves the state unchanged (the source returns early for a
missing current user and would fault on a missing recipient, which its
caller makes unreachable). -/
def handleTransfer (s : AppState) (senderId recipientId : String)
    (amountGrams : ℚ) (now : ℕ) : AppState :=
  match findUser s.users senderId, findUser s.users recipientId with
  | some sender, some recipient =>
    let users' :=
      setUser (setUser s.users sender.id { sender with goldBalance := sender.goldBalance - amountGrams })
        recipient.id { recipient with goldBalance := recipient.goldBalance + amountGrams }
    { users := users',
      transactions := sortByDateDesc
        (transferOutTx sender recipient amountGrams now ::
          transferInTx sender recipient amountGrams now :: s.transactions) }
  | _, _ => s

/-- handleWithdraw of src/index.tsx: creates a pending withdrawal
transaction and touches no balance. -/
def handleWithdraw (s : AppState) (uid : String) (amountGrams : ℚ) (now : ℕ) : AppState :=
  handleNewTransaction s uid .withdrawal amountGrams none .pending now

/-- handleLoan of src/index.tsx: credits the net amount
loanETB * (1 - LOAN_COMMISSION_RATE) to etbBalance, debits the collateral
from goldBalance, then records a completed loan transaction carrying the
collateral grams and the gross ETB amount. -/
def handleLoan (s : AppState) (uid : String) (collateralGrams loanETB : ℚ) (now : ℕ) : AppState :=
  match findUser s.users uid with
  | none => s
  | some u =>
    let receivedETB := loanETB * (1 - LOAN_COMMISSION_RATE)
    let users' := setUser s.users u.id
      { u with goldBalance := u.goldBalance - collateralGrams,
               etbBalance := u.etbBalance + receivedETB }
    let s' : AppState := { s with users := users' }
    handleNewTransaction s' uid .loan collateralGrams (some loanETB) .completed now

/-- handleApproval of src/index.tsx: finds the transaction (early return
when unknown), on approve credits a conversion or debits a withdrawal by
its amountGrams, then maps every transaction with the given id to status
completed (approve) or failed (reject).  The source never reads the
transaction's current status.  A missing owning user leaves the users
record unchanged (the source would fault there; all stored transactions
reference existing users). -/
def handleApproval (s : AppState) (txId : String) (action : Decision) : AppState :=
  match findTx s.transactions txId with
  | none => s
  | some tx =>
    let users' :=
      if action = .approve then
        match findUser s.users tx.userId with
        | none => s.users
        | some user =>
          match tx.type with
          | .conversion => setUser s.users user.id { user with goldBalance := user.goldBalance + tx.amountGrams }
          | .withdrawal => setUser s.users user.id { user with goldBalance := user.goldBalance - tx.amountGrams }
          | _ => s.users
      else s.users
    { users := users',
      transactions := s.transactions.map (fun t =>
        if t.id == txId then
          { t with status := if action = .approve then TxStatus.completed else TxStatus.failed }
        else t) }

/-- Recipient resolution of TransferModal: the first user whose phone or
email equals the identifier and who is not the sending user. -/
def findRecipient (users : List User) (identifier senderId : String) : Option User :=
  users.find? (fun u => (u.phone == identifier || u.email == identifier) && !(u.id == senderId))

/-- Validation and submission of TransferModal (handleTransfer inside the
modal): empty identifier or non-positive amount, insufficient balance, and
unknown recipient each fail with the corresponding inline error; otherwise
the App handleTransfer runs. -/
def transferModalSubmit (s : AppState) (user : User) (recipientIdentifier : String)
    (amount : ℚ) (now : ℕ) : Except LedgerError AppState :=
  if recipientIdentifier = "" ∨ amount ≤ 0 then
    .error (.validationError "Please fill in all fields.")
  else if amount > user.goldBalance then
    .error (.validationError "Insufficient gold balance.")
  else
    match findRecipient s.users recipientIdentifier user.id with
    | none => .error (.validationError "Recipient not found.")
    | some recipient => .ok (handleTransfer s user.id recipient.id amount now)

/-- Validation and submission of WithdrawModal. -/
def withdrawModalSubmit (s : AppState) (user : User) (amount : ℚ) (now : ℕ) :
    Except LedgerError AppState :=
  if amount ≤ 0 then
    .error (.validationError "Please enter a valid amount.")
  else if amount > user.goldBalance then
    .error (.validationError "Insufficient gold balance for withdrawal.")
  else .ok (handleWithdraw s user.id amount now)

/-- Validation and submission of LoanSelfModal: computes
maxLoanableETB = goldBalance * livePrice * LOAN_TO_VALUE_RATIO and the
required collateral (etbAmount / livePrice) / LOAN_TO_VALUE_RATIO,
rejecting non-positive and over-limit requests. -/
def loanModalSubmit (s : AppState) (user : User) (livePrice etbAmount : ℚ) (now : ℕ) :
    Except LedgerError AppState :=
  let maxLoanableETB := user.goldBalance * livePrice * LOAN_TO_VALUE_RATIO
  let requiredCollateralGrams := (etbAmount / livePrice) / LOAN_TO_VALUE_RATIO
  if etbAmount ≤ 0 then
    .error (.validationError "Please enter a valid amount.")
  else if etbAmount > maxLoanableETB then
    .error (.validationError "Requested amount exceeds the maximum allowed.")
  else .ok (handleLoan s user.id requiredCollateralGrams etbAmount now)

/-- Buy-gold flow (BuyGoldForm): handleBuyGold only opens the payment
modal when both amounts are positive, and the manual-payment confirmation
then records a pending conversion transaction; no balance changes. -/
def buyGoldConfirm (s : AppState) (uid : String) (etb grams : ℚ) (now : ℕ) : AppState :=
  if 0 < etb ∧ 0 < grams then
    handleNewTransaction s uid .conversion grams (some etb) .pending now
  else s

/-- One user intent entering the ledger, with the acting user, the inputs
of the corresponding form and the Date.now() timestamp at which it runs. -/
inductive Op where
  | buyGold (uid : String) (etb grams : ℚ) (now : ℕ)
  | transfer (uid recipientIdentifier : String) (amountGrams : ℚ) (now : ℕ)
  | withdraw (uid : String) (amountGrams : ℚ) (now : ℕ)
  | loan (uid : String) (livePrice amountETB : ℚ) (now : ℕ)
  | approval (txId : String) (action : Decision)
deriving DecidableEq, Repr

/-- Effect of one operation on the ledger state.  A validation error is
shown inline by the modal and mutates nothing, so the state is returned
unchanged; likewise when no current user is resolved. -/
def step (s : AppState) : Op → AppState
  | .buyGold uid etb grams now => buyGoldConfirm s uid etb grams now
  | .transfer uid rid amt now =>
    match findUser s.users uid with
    | none => s
    | some user =>
      match transferModalSubmit s user rid amt now with
      | .ok s' => s'
      | .error _ => s
  | .withdraw uid amt now =>
    match findUser s.users uid with
    | none => s
    | some user =>
      match withdrawModalSubmit s user amt now with
      | .ok s' => s'
      | .error _ => s
  | .loan uid price etb now =>
    match findUser s.users uid with
    | none => s
    | some user =>
      match loanModalSubmit s user price etb now with
      | .ok s' => s'
      | .error _ => s
  | .approval txId action => handleApproval s txId action

/-- Run a sequence of operations from a state. -/
def run (s : AppState) (ops : List Op) : AppState :=
  ops.foldl step s

/-- INITIAL_USERS entry usr_1 (src/index.tsx). -/
def abebe : User :=
  { id := "usr_1", name := "Abebe Bikila", phone := "+251912345678",
    email := "abebe@example.com", role := .user, goldBalance := 5.75,
    etbBalance := 12000, guaranteedGrams := 0.5, referralCode := "GOLDENAB24",
    joinDate := "2023-08-15" }

/-- INITIAL_USERS entry usr_2 (src/index.tsx). -/
def fatuma : User :=
  { id := "usr_2", name := "Fatuma Roba", phone := "+251923456789",
    email := "fatuma@example.com", role := .user, goldBalance := 12.25,
    etbBalance := 5500, guaranteedGrams := 0, referralCode := "FATUMA88",
    joinDate := "2023-01-20" }

/-- INITIAL_USERS entry usr_3 (src/index.tsx). -/
def adminUser : User :=
  { id := "usr_3", name := "Admin User", phone := "+251900000000",
    email := "admin@goldendigital.pro.et", role := .admin, goldBalance := 0,
    etbBalance := 1000000, guaranteedGrams := 0, referralCode := "ADMINPRO",
    joinDate := "2022-11-01" }

/-- INITIAL_USERS (src/index.tsx), as the list of entries of the record. -/
def INITIAL_USERS : List User := [abebe, fatuma, adminUser]

/-- INITIAL_TRANSACTIONS (src/index.tsx); the dates are the epoch
milliseconds of the ISO timestamps of the source. -/
def INITIAL_TRANSACTIONS : List Transaction :=
  [ { id := "tx_1", date := 1721642400000, type := .conversion, amountGrams := 2.5,
      amountETB := some 19875.63, fromName := none, toName := none,
      status := .completed, userId := "usr_1" },
    { id := "tx_2", date := 1721575800000, type := .transfer_out, amountGrams := 1.0,
      amountETB := none, fromName := some "Abebe Bikila", toName := some "Fatuma Roba",
      status := .completed, userId := "usr_1" },
    { id := "tx_3", date := 1721575800000, type := .transfer_in, amountGrams := 1.0,
      amountETB := none, fromName := some "Abebe Bikila", toName := some "Fatuma Roba",
      status := .completed, userId := "usr_2" },
    { id := "tx_4", date := 1721466000000, type := .loan, amountGrams := 1.5,
      amountETB := some 5887.5, fromName := none, toName := none,
      status := .completed, userId := "usr_2" },
    { id := "tx_5", date := 1721732400000, type := .conversion, amountGrams := 0.5,
      amountETB := some 3975.13, fromName := none, toName := none,
      status := .pending, userId := "usr_1" },
    { id := "tx_6", date := 1721304000000, type := .guarantee_provided, amountGrams := 0.5,
      amountETB := none, fromName := none, toName := some "Friend Account",
      status := .completed, userId := "usr_1" },
    { id := "tx_7", date := 1721811600000, type := .withdrawal, amountGrams := 2.0,
      amountETB := none, fromName := none, toName := none,
      status := .pending, userId := "usr_2" } ]

/-- The seeded ledger state of a fresh session. -/
def seededState : AppState :=
  { users := INITIAL_USERS, transactions := INITIAL_TRANSACTIONS }

/-- One tick of the price feed (the setInterval effect of App):
setLivePrice(p => Math.max(7800, p + (Math.random() - 0.5) * 10)), with
r the value produced by Math.random(). -/
def priceTick (p r : ℚ) : ℚ :=
  max 7800 (p + (r - 0.5) * 10)

/-- Prices the free-running feed can reach from the base price, where each
tick consumes a Math.random() value r with 0 ≤ r < 1. -/
inductive ReachablePrice : ℚ → Prop where
  | base : ReachablePrice BASE_GOLD_PRICE_ETB
  | tick (p r : ℚ) : ReachablePrice p → 0 ≤ r → r < 1 → ReachablePrice (priceTick p r)

/-- Sortedness by date descending, the order produced by sortByDateDesc. -/
def SortedByDateDesc (l : List Transaction) : Prop :=
  l.Pairwise (fun a b => b.date ≤ a.date)

/-- Balance part of the ledger invariant: all balances are non-negative. -/
def BalancesNonneg (users : List User) : Prop :=
  ∀ u ∈ users, 0 ≤ u.goldBalance ∧ 0 ≤ u.etbBalance

/-- Amount part of the ledger invariant: stored amounts are non-negative. -/
def AmountsNonneg (txs : List Transaction) : Prop :=
  ∀ t ∈ txs, 0 ≤ t.amountGrams

/-- Ledger invariant used for preservation proofs. -/
def LedgerInv (s : AppState) : Prop :=
  BalancesNonneg s.users ∧ AmountsNonneg s.transactions

/-- Guard under which an approval cannot overdraw: an approved withdrawal
must be covered by its owner's current gold balance.  The source does not
enforce this guard. -/
def approvalSafe (s : AppState) : Op → Bool
  | .approval txId .approve =>
    match findTx s.transactions txId with
    | some tx =>
      if tx.type == TxType.withdrawal then
        decide (tx.amountGrams ≤ goldOf s.users tx.userId)
      else true
    | none => true
  | _ => true

/-- Every approval along the run of the operation sequence is covered. -/
def safeOps : AppState → List Op → Bool
  | _, [] => true
  | s, op :: rest => approvalSafe s op && safeOps (step s op) rest

theorem insertTx_perm (t : Transaction) (l : List Transaction) :
    List.Perm (insertTx t l) (t :: l) := by
  induction l with
  | nil => simp [insertTx]
  | cons u us ih =>
    by_cases h : u.date ≤ t.date
    · simp [insertTx, h]
    · simp only [insertTx, if_neg h]
      exact (ih.cons u).trans (List.Perm.swap t u us)

theorem sortByDateDesc_perm (l : List Transaction) :
    List.Perm (sortByDateDesc l) l := by
  induction l with
  | nil => simp [sortByDateDesc]
  | cons t ts ih =>
    have : sortByDateDesc (t :: ts) = insertTx t (sortByDateDesc ts) := rfl
    rw [this]
    exact (insertTx_perm t (sortByDateDesc ts)).trans (ih.cons t)

theorem mem_sortByDateDesc {a : Transaction} {l : List Transaction} :
    a ∈ sortByDateDesc l ↔ a ∈ l :=
  (sortByDateDesc_perm l).mem_iff

theorem insertTx_sorted {t : Transaction} {l : List Transaction}
    (h : SortedByDateDesc l) : SortedByDateDesc (insertTx t l) := by
  induction l with
  | nil => simp [insertTx, SortedByDateDesc]
  | cons u us ih =>
    rcases List.pairwise_cons.mp h with ⟨hu, hus⟩
    by_cases hd : u.date ≤ t.date
    · simp only [insertTx, if_pos hd]
      refine List.pairwise_cons.mpr ⟨?_, h⟩
      intro b hb
      rcases List.mem_cons.mp hb with hb | hb
      · subst hb; exact hd
      · exact le_trans (hu b hb) hd
    · simp only [insertTx, if_neg hd]
      refine List.pairwise_cons.mpr ⟨?_, ih hus⟩
      intro b hb
      have hb' : b ∈ t :: us := (insertTx_perm t us).mem_iff.mp hb
      rcases List.mem_cons.mp hb' with hb' | hb'
      · subst hb'; exact le_of_lt (lt_of_not_ge hd)
      · exact hu b hb'

theorem sortByDateDesc_sorted (l : List Transaction) :
    SortedByDateDesc (sortByDateDesc l) := by
  induction l with
  | nil => simp [sortByDateDesc, SortedByDateDesc]
  | cons t ts ih =>
    have : sortByDateDesc (t :: ts) = insertTx t (sortByDateDesc ts) := rfl
    rw [this]
    exact insertTx_sorted ih

theorem findUser_id {us : List User} {uid : String} {u : User}
    (h : findUser us uid = some u) : u.id = uid := by
  unfold findUser at h
  have hp := List.find?_some h
  exact eq_of_beq hp

theorem findUser_mem {us : List User} {uid : String} {u : User}
    (h : findUser us uid = some u) : u ∈ us :=
  List.mem_of_find?_eq_some h

theorem findUser_setUser (us : List User) (uid uid' : String) (u' : User)
    (h : u'.id = uid') :
    findUser (setUser us uid' u') uid
      = (findUser us uid).map (fun u => if u.id == uid' then u' else u) := by
  unfold findUser setUser
  have hpg : ((fun u : User => u.id == uid) ∘ fun u => if u.id == uid' then u' else u)
      = fun u : User => u.id == uid := by
    funext u
    by_cases hc : (u.id == uid') = true
    · have hu : u.id = uid' := eq_of_beq hc
      simp [Function.comp, hc, h, hu]
    · simp [Function.comp, hc]
  rw [List.find?_map, hpg]

theorem goldOf_eq {us : List User} {uid : String} {u : User}
    (h : findUser us uid = some u) : goldOf us uid = u.goldBalance := by
  unfold goldOf; rw [h]

theorem etbOf_eq {us : List User} {uid : String} {u : User}
    (h : findUser us uid = some u) : etbOf us uid = u.etbBalance := by
  unfold etbOf; rw [h]

theorem findUser_setUser_self {us : List User} {uid : String} {u : User} (u' : User)
    (h : u'.id = uid) (hu : findUser us uid = some u) :
    findUser (setUser us uid u') uid = some u' := by
  rw [findUser_setUser us uid uid u' h, hu]
  have hid : u.id = uid := findUser_id hu
  simp [hid]

theorem findUser_setUser_other {us : List User} {uid uid' : String} (u' : User)
    (hne : uid ≠ uid') (h : u'.id = uid') :
    findUser (setUser us uid' u') uid = findUser us uid := by
  rw [findUser_setUser us uid uid' u' h]
  cases hu : findUser us uid with
  | none => rfl
  | some u =>
    have hid : u.id = uid := findUser_id hu
    have hfalse : ¬((u.id == uid') = true) := fun hc => hne (hid ▸ eq_of_beq hc)
    simp only [Option.map_some']
    rw [if_neg hfalse]

theorem goldOf_setUser_self {us : List User} {uid : String} {u : User} (u' : User)
    (h : u'.id = uid) (hu : findUser us uid = some u) :
    goldOf (setUser us uid u') uid = u'.goldBalance :=
  goldOf_eq (findUser_setUser_self u' h hu)

theorem goldOf_setUser_other {us : List User} {uid uid' : String} (u' : User)
    (hne : uid ≠ uid') (h : u'.id = uid') :
    goldOf (setUser us uid' u') uid = goldOf us uid := by
  unfold goldOf
  rw [findUser_setUser_other u' hne h]

theorem etbOf_setUser_self {us : List User} {uid : String} {u : User} (u' : User)
    (h : u'.id = uid) (hu : findUser us uid = some u) :
    etbOf (setUser us uid u') uid = u'.etbBalance :=
  etbOf_eq (findUser_setUser_self u' h hu)

theorem findTx_id {txs : List Transaction} {txId : String} {t : Transaction}
    (h : findTx txs txId = some t) : t.id = txId := by
  unfold findTx at h
  have hp := List.find?_some h
  exact eq_of_beq hp

theorem findTx_mem {txs : List Transaction} {txId : String} {t : Transaction}
    (h : findTx txs txId = some t) : t ∈ txs :=
  List.mem_of_find?_eq_some h

theorem findTx_map (g : Transaction → Transaction) (hg : ∀ t, (g t).id = t.id)
    (txs : List Transaction) (txId : String) :
    findTx (txs.map g) txId = (findTx txs txId).map g := by
  unfold findTx
  have hpg : ((fun t : Transaction => t.id == txId) ∘ g)
      = fun t : Transaction => t.id == txId := by
    funext t
    simp [Function.comp, hg t]
  rw [List.find?_map, hpg]

theorem findTx_eq_some_of_unique {txs : List Transaction} {txId : String} {t : Transaction}
    (hmem : t ∈ txs) (hid : t.id = txId)
    (huniq : ∀ t' ∈ txs, t'.id = txId → t' = t) :
    findTx txs txId = some t := by
  induction txs with
  | nil => cases hmem
  | cons a l ih =>
    by_cases ha : a.id = txId
    · have hat : a = t := huniq a (List.mem_cons_self a l) ha
      unfold findTx
      rw [List.find?_cons_of_pos _ (by simp [ha])]
      rw [hat]
    · have hmem' : t ∈ l := by
        rcases List.mem_cons.mp hmem with h | h
        · exact absurd (h ▸ hid) ha
        · exact h
      have hrec := ih hmem' (fun t' ht' h => huniq t' (List.mem_cons_of_mem a ht') h)
      unfold findTx at hrec ⊢
      rw [List.find?_cons_of_neg _ (by simp [ha])]
      exact hrec

theorem findRecipient_ne {us : List User} {rid sid : String} {u : User}
    (h : findRecipient us rid sid = some u) : u.id ≠ sid := by
  unfold findRecipient at h
  have hp := List.find?_some h
  intro hEq
  rw [hEq] at hp
  simp at hp

theorem findRecipient_findUser {us : List User} {rid sid : String} {u : User}
    (h : findRecipient us rid sid = some u) : u ∈ us :=
  List.mem_of_find?_eq_some h

theorem transferModalSubmit_ok {s : AppState} {user : User} {rid : String}
    {amt : ℚ} {now : ℕ} {s' : AppState}
    (h : transferModalSubmit s user rid amt now = Except.ok s') :
    0 < amt ∧ amt ≤ user.goldBalance ∧
      ∃ rcp, findRecipient s.users rid user.id = some rcp ∧
        s' = handleTransfer s user.id rcp.id amt now := by
  unfold transferModalSubmit at h
  split at h
  · cases h
  · rename_i hc1
    split at h
    · cases h
    · rename_i hc2
      push_neg at hc1
      push_neg at hc2
      split at h
      · cases h
      · rename_i rcp heq
        cases h
        exact ⟨hc1.2, hc2, rcp, heq, rfl⟩

theorem withdrawModalSubmit_ok {s : AppState} {user : User}
    {amt : ℚ} {now : ℕ} {s' : AppState}
    (h : withdrawModalSubmit s user amt now = Except.ok s') :
    0 < amt ∧ amt ≤ user.goldBalance ∧ s' = handleWithdraw s user.id amt now := by
  unfold withdrawModalSubmit at h
  split at h
  · cases h
  · rename_i hc1
    split at h
    · cases h
    · rename_i hc2
      push_neg at hc2
      cases h
      exact ⟨lt_of_not_ge hc1, hc2, rfl⟩

theorem loanModalSubmit_ok {s : AppState} {user : User}
    {livePrice etbAmount : ℚ} {now : ℕ} {s' : AppState}
    (h : loanModalSubmit s user livePrice etbAmount now = Except.ok s') :
    0 < etbAmount ∧
      etbAmount ≤ user.goldBalance * livePrice * LOAN_TO_VALUE_RATIO ∧
      s' = handleLoan s user.id ((etbAmount / livePrice) / LOAN_TO_VALUE_RATIO) etbAmount now := by
  simp only [loanModalSubmit] at h
  split at h
  · cases h
  · rename_i hc1
    split at h
    · cases h
    · rename_i hc2
      push_neg at hc2
      cases h
      exact ⟨lt_of_not_ge hc1, hc2, rfl⟩

theorem LOAN_TO_VALUE_RATIO_eq : LOAN_TO_VALUE_RATIO = 1 / 2 := by
  norm_num [ LOAN_TO_VALUE_RATIO]

theorem LOAN_COMMISSION_RATE_eq : LOAN_COMMISSION_RATE = 1 / 20 := by
  norm_num [ LOAN_COMMISSION_RATE]

theorem balancesNonneg_setUser {us : List User} {uid : String} {u' : User}
    (h : BalancesNonneg us) (hg : 0 ≤ u'.goldBalance) (he : 0 ≤ u'.etbBalance) :
    BalancesNonneg (setUser us uid u') := by
  intro v hv
  rcases List.mem_map.mp hv with ⟨w, hw, rfl⟩
  by_cases hc : (w.id == uid) = true
  · simp only [if_pos hc]
    exact ⟨hg, he⟩
  · simp only [if_neg hc]
    exact h w hw

theorem handleNewTransaction_inv {s : AppState} {uid : String} {ty : TxType}
    {amt : ℚ} {aetb : Option ℚ} {st : TxStatus} {now : ℕ}
    (hinv : LedgerInv s) (hamt : 0 ≤ amt) :
    LedgerInv (handleNewTransaction s uid ty amt aetb st now) := by
  unfold handleNewTransaction
  cases hu : findUser s.users uid with
  | none => exact hinv
  | some u =>
    refine ⟨hinv.1, ?_⟩
    intro t ht
    have hmem := mem_sortByDateDesc.mp ht
    rcases List.mem_cons.mp hmem with h | h
    · subst h
      exact hamt
    · exact hinv.2 t h

theorem step_preserves_inv (s : AppState) (op : Op)
    (hinv : LedgerInv s) (hsafe : approvalSafe s op = true) :
    LedgerInv (step s op) := by
  cases op with
  | buyGold uid etb grams now =>
    show LedgerInv (buyGoldConfirm s uid etb grams now)
    unfold buyGoldConfirm
    split
    · rename_i hc
      exact handleNewTransaction_inv hinv (le_of_lt hc.2)
    · exact hinv
  | transfer uid rid amt now =>
    simp only [step]
    split
    · exact hinv
    · rename_i user hu
      split
      · rename_i s' hsub
        rcases transferModalSubmit_ok hsub with ⟨hpos, hle, rcp, hrcp, rfl⟩
        unfold handleTransfer
        split
        · rename_i sender recipient hs' hr'
          have hsu : sender = user := by
            have hs'' := hs'
            rw [findUser_id hu, hu] at hs''
            exact (Option.some.injEq _ _).mp hs'' |>.symm
          have hle' : amt ≤ sender.goldBalance := by
            rw [hsu]
            exact hle
          have hs_bal := hinv.1 sender (findUser_mem hs')
          have hr_bal := hinv.1 recipient (findUser_mem hr')
          constructor
          · apply balancesNonneg_setUser
            · apply balancesNonneg_setUser hinv.1
              · show 0 ≤ sender.goldBalance - amt
                linarith
              · exact hs_bal.2
            · show 0 ≤ recipient.goldBalance + amt
              linarith [hr_bal.1]
            · exact hr_bal.2
          · intro t ht
            have hmem := mem_sortByDateDesc.mp ht
            rcases List.mem_cons.mp hmem with h | h
            · subst h
              exact le_of_lt hpos
            · rcases List.mem_cons.mp h with h | h
              · subst h
                exact le_of_lt hpos
              · exact hinv.2 t h
        · exact hinv
      · exact hinv
  | withdraw uid amt now =>
    simp only [step]
    split
    · exact hinv
    · rename_i user hu
      split
      · rename_i s' hsub
        rcases withdrawModalSubmit_ok hsub with ⟨hpos, _, rfl⟩
        exact handleNewTransaction_inv hinv (le_of_lt hpos)
      · exact hinv
  | loan uid price etb now =>
    simp only [step]
    split
    · exact hinv
    · rename_i user hu
      split
      · rename_i s' hsub
        rcases loanModalSubmit_ok hsub with ⟨hpos, hmax, rfl⟩
        unfold handleLoan
        split
        · exact hinv
        · rename_i u hu'
          have huu : u = user := by
            have hu'' := hu'
            rw [findUser_id hu, hu] at hu''
            exact (Option.some.injEq _ _).mp hu'' |>.symm
          have hgold : 0 ≤ u.goldBalance := (hinv.1 u (findUser_mem hu')).1
          have hetb : 0 ≤ u.etbBalance := (hinv.1 u (findUser_mem hu')).2
          rw [LOAN_TO_VALUE_RATIO_eq] at hmax
          have hmax' : etb ≤ u.goldBalance * price * (1 / 2) := by
            rw [huu]
            exact hmax
          have hp : 0 < price := by
            by_contra hnp
            push_neg at hnp
            nlinarith [mul_nonneg hgold (neg_nonneg.mpr hnp)]
          have hcoll_nonneg : 0 ≤ (etb / price) / LOAN_TO_VALUE_RATIO := by
            rw [LOAN_TO_VALUE_RATIO_eq]
            have := div_pos (div_pos hpos hp) (show (0:ℚ) < 1 / 2 by norm_num)
            linarith
          have hcoll_le : (etb / price) / LOAN_TO_VALUE_RATIO ≤ u.goldBalance := by
            rw [LOAN_TO_VALUE_RATIO_eq]
            rw [div_le_iff₀ (show (0:ℚ) < 1 / 2 by norm_num), div_le_iff₀ hp]
            nlinarith
          apply handleNewTransaction_inv
          · constructor
            · apply balancesNonneg_setUser hinv.1
              · show 0 ≤ u.goldBalance - (etb / price) / LOAN_TO_VALUE_RATIO
                linarith
              · show 0 ≤ u.etbBalance + etb * (1 - LOAN_COMMISSION_RATE)
                rw [LOAN_COMMISSION_RATE_eq]
                nlinarith
            · exact hinv.2
          · exact hcoll_nonneg
      · exact hinv
  | approval txId action =>
    show LedgerInv (handleApproval s txId action)
    unfold handleApproval
    cases htx : findTx s.transactions txId with
    | none => exact hinv
    | some tx =>
      refine ⟨?_, ?_⟩
      · show BalancesNonneg (if action = .approve then _ else s.users)
        cases action with
        | reject =>
          rw [if_neg (by decide)]
          exact hinv.1
        | approve =>
          rw [if_pos rfl]
          cases hu : findUser s.users tx.userId with
          | none => exact hinv.1
          | some user =>
            have huser := hinv.1 user (findUser_mem hu)
            cases hty : tx.type with
            | conversion =>
              apply balancesNonneg_setUser hinv.1
              · show 0 ≤ user.goldBalance + tx.amountGrams
                have := hinv.2 tx (findTx_mem htx)
                linarith [huser.1]
              · exact huser.2
            | withdrawal =>
              apply balancesNonneg_setUser hinv.1
              · show 0 ≤ user.goldBalance - tx.amountGrams
                simp only [approvalSafe] at hsafe
                rw [htx] at hsafe
                simp only [hty] at hsafe
                rw [goldOf_eq hu] at hsafe
                simp at hsafe
                rcases hsafe with hfalse | hcov
                · exact absurd hfalse (by decide)
                · linarith
              · exact huser.2
            | transfer_in => exact hinv.1
            | transfer_out => exact hinv.1
            | loan => exact hinv.1
            | guarantee_provided => exact hinv.1
            | loan_repayment => exact hinv.1
            | referral_bonus => exact hinv.1
      · intro t' ht'
        rcases List.mem_map.mp ht' with ⟨w, hw, rfl⟩
        by_cases hc : (w.id == txId) = true
        · simp only [if_pos hc]
          exact hinv.2 w hw
        · simp only [if_neg hc]
          exact hinv.2 w hw

theorem run_preserves_inv (ops : List Op) :
    ∀ s : AppState, LedgerInv s → safeOps s ops = true → LedgerInv (run s ops) := by
  induction ops with
  | nil =>
    intro s h _
    exact h
  | cons op rest ih =>
    intro s h hsafe
    rcases Bool.and_eq_true _ _ ▸ hsafe with ⟨h1, h2⟩
    exact ih (step s op) (step_preserves_inv s op h h1) h2

theorem seededState_inv : LedgerInv seededState := by
  constructor
  · intro u hu
    fin_cases hu <;> constructor <;> norm_num [abebe, fatuma, adminUser]
  · intro t ht
    fin_cases ht <;> norm_num

/-- C1 (counterexample): the claim as stated is false on the code.  From
the seeded state, usr_2 (12.25 g) requests two withdrawals of 12 g — each
individually validated against the unchanged balance — and the admin
approves both; the second approval debits an uncovered 12 g and leaves
usr_2's goldBalance at -11.75 g, because handleApproval applies the
withdrawal debit without re-checking the balance. -/
theorem no_negative_balances_counterexample :
    goldOf (run seededState
      [Op.withdraw "usr_2" 12 100, Op.withdraw "usr_2" 12 200,
       Op.approval "tx_100" Decision.approve,
       Op.approval "tx_200" Decision.approve]).users "usr_2" < 0 := by
  decide

/-- C1 (amended): for every sequence of ledger operations from the seeded
state in which every approved withdrawal is covered by its owner's gold
balance at approval time, every user's goldBalance and etbBalance remain
non-negative after each operation.  The covering side condition is exactly
what the unvalidated withdrawal debit of handleApproval requires; all
other debits are validated by the code before being applied. -/
theorem no_negative_balances (ops : List Op)
    (hsafe : safeOps seededState ops = true) :
    BalancesNonneg (run seededState ops).users :=
  (run_preserves_inv ops seededState seededState_inv hsafe).1

/-- Witness: a covered withdrawal request plus its approval keeps all
balances non-negative. -/
theorem no_negative_balances_witness :
    safeOps seededState
      [Op.withdraw "usr_1" 1 50, Op.approval "tx_50" Decision.approve] = true ∧
    BalancesNonneg (run seededState
      [Op.withdraw "usr_1" 1 50, Op.approval "tx_50" Decision.approve]).users :=
  ⟨by decide, no_negative_balances _ (by decide)⟩

/-- C2 (counterexample): transaction tx_1 of the seeded state is already
completed, yet resolving it again with approve changes usr_1's gold
balance (it re-credits the 2.5 g conversion), so a second resolution is
neither a no-op nor an error. -/
theorem approval_idempotence_counterexample :
    (findTx seededState.transactions "tx_1").map Transaction.status
      = some TxStatus.completed ∧
    goldOf (handleApproval seededState "tx_1" Decision.approve).users "usr_1"
      ≠ goldOf seededState.users "usr_1" := by
  decide

/-- C2 (amended): handleApproval never reads the transaction's current
status: overwriting the target transaction's status with any value
(pending, completed or failed) before resolving gives exactly the same
result.  Hence resolving an already-terminal transaction behaves as if it
were still pending — approve re-applies the balance effect and sets the
status to completed, reject sets it to failed — instead of being a no-op
or an error. -/
theorem approval_ignores_status (s : AppState) (txId : String)
    (action : Decision) (st : TxStatus) :
    handleApproval
      { s with transactions := s.transactions.map (fun t =>
          if t.id == txId then { t with status := st } else t) }
      txId action
      = handleApproval s txId action := by
  have hg : ∀ t : Transaction,
      ((fun t => if t.id == txId then { t with status := st } else t) t).id = t.id := by
    intro t
    by_cases hc : (t.id == txId) = true
    · simp [hc]
    · simp [hc]
  unfold handleApproval
  dsimp only
  rw [findTx_map _ hg]
  cases h : findTx s.transactions txId with
  | none =>
    dsimp only [Option.map_none']
    have hnone : ∀ t ∈ s.transactions, ¬(t.id == txId) = true := by
      unfold findTx at h
      exact List.find?_eq_none.mp h
    have hmap : s.transactions.map (fun t =>
        if t.id == txId then { t with status := st } else t) = s.transactions := by
      have hid' : ∀ t ∈ s.transactions,
          (if t.id == txId then { t with status := st } else t) = t :=
        fun t ht => if_neg (hnone t ht)
      rw [List.map_congr_left hid']
      exact List.map_id _
    cases s
    simp only at hmap ⊢
    rw [hmap]
  | some tx =>
    have htxid : (tx.id == txId) = true := by
      rw [findTx_id h]
      exact beq_self_eq_true txId
    simp only [Option.map_some', htxid, if_true]
    congr 1
    rw [List.map_map]
    apply List.map_congr_left
    intro t ht
    by_cases hc : (t.id == txId) = true
    · simp [Function.comp, hc]
    · simp [Function.comp, hc]

/-- Fields of a transaction other than status. -/
def TxSameExceptStatus (t t' : Transaction) : Prop :=
  t'.id = t.id ∧ t'.date = t.date ∧ t'.type = t.type ∧
  t'.amountGrams = t.amountGrams ∧ t'.amountETB = t.amountETB ∧
  t'.fromName = t.fromName ∧ t'.toName = t.toName ∧ t'.userId = t.userId

/-- C9: resolving an approval changes at most the status field of the
transactions whose id is the resolved one: position by position, every
transaction keeps its id, date, type, amountGrams, amountETB, from, to
and userId, and a transaction whose id differs from the resolved id is
completely unchanged. -/
theorem approval_changes_only_status (s : AppState) (txId : String) (action : Decision) :
    List.Forall₂ (fun t t' => TxSameExceptStatus t t' ∧ (t.id ≠ txId → t' = t))
      s.transactions (handleApproval s txId action).transactions := by
  unfold handleApproval
  cases h : findTx s.transactions txId with
  | none =>
    dsimp only
    exact List.forall₂_same.mpr (fun t _ =>
      ⟨⟨rfl, rfl, rfl, rfl, rfl, rfl, rfl, rfl⟩, fun _ => rfl⟩)
  | some tx =>
    dsimp only
    rw [List.forall₂_map_right_iff]
    apply List.forall₂_same.mpr
    intro t _
    by_cases hc : (t.id == txId) = true
    · refine ⟨?_, ?_⟩
      · simp only [if_pos hc]
        exact ⟨rfl, rfl, rfl, rfl, rfl, rfl, rfl, rfl⟩
      · intro hne
        exact absurd (eq_of_beq hc) hne
    · rw [if_neg hc]
      exact ⟨⟨rfl, rfl, rfl, rfl, rfl, rfl, rfl, rfl⟩, fun _ => rfl⟩

/-- Operations that append a transaction record (everything except an
approval resolution). -/
def appendingOp : Op → Bool
  | .approval _ _ => false
  | _ => true

theorem step_transactions_shape (s : AppState) (op : Op)
    (happ : appendingOp op = true) :
    (step s op).transactions = s.transactions ∨
      ∃ l, (step s op).transactions = sortByDateDesc l := by
  cases op with
  | buyGold uid etb grams now =>
    simp only [step]
    unfold buyGoldConfirm
    split
    · unfold handleNewTransaction
      split
      · exact Or.inl rfl
      · exact Or.inr ⟨_, rfl⟩
    · exact Or.inl rfl
  | transfer uid rid amt now =>
    simp only [step]
    split
    · exact Or.inl rfl
    · split
      · rename_i s' hsub
        rcases transferModalSubmit_ok hsub with ⟨_, _, rcp, _, rfl⟩
        unfold handleTransfer
        split
        · exact Or.inr ⟨_, rfl⟩
        · exact Or.inl rfl
      · exact Or.inl rfl
  | withdraw uid amt now =>
    simp only [step]
    split
    · exact Or.inl rfl
    · split
      · rename_i s' hsub
        rcases withdrawModalSubmit_ok hsub with ⟨_, _, rfl⟩
        unfold handleWithdraw handleNewTransaction
        split
        · exact Or.inl rfl
        · exact Or.inr ⟨_, rfl⟩
      · exact Or.inl rfl
  | loan uid price etb now =>
    simp only [step]
    split
    · exact Or.inl rfl
    · split
      · rename_i s' hsub
        rcases loanModalSubmit_ok hsub with ⟨_, _, rfl⟩
        simp only [handleLoan, handleNewTransaction]
        split
        · exact Or.inl rfl
        · split
          · exact Or.inl rfl
          · exact Or.inr ⟨_, rfl⟩
      · exact Or.inl rfl
  | approval txId action =>
    simp [appendingOp] at happ

/-- C10: after every operation that appends a transaction (purchase
confirmation, transfer, withdrawal request, loan) and actually changes the
stored list, the stored transaction sequence is sorted by date in
descending order, because every append re-sorts the whole list. -/
theorem appended_transactions_sorted (s : AppState) (op : Op)
    (happ : appendingOp op = true)
    (hch : (step s op).transactions ≠ s.transactions) :
    SortedByDateDesc (step s op).transactions := by
  rcases step_transactions_shape s op happ with h | ⟨l, h⟩
  · exact absurd h hch
  · rw [h]
    exact sortByDateDesc_sorted l

/-- Witness: a withdrawal request on the seeded state appends a record and
leaves the stored list sorted by date descending. -/
theorem appended_transactions_sorted_witness :
    appendingOp (Op.withdraw "usr_1" 2 42) = true ∧
    (step seededState (Op.withdraw "usr_1" 2 42)).transactions
      ≠ seededState.transactions ∧
    SortedByDateDesc (step seededState (Op.withdraw "usr_1" 2 42)).transactions :=
  ⟨by decide, by decide, appended_transactions_sorted _ _ (by decide) (by decide)⟩

/-- C3: for every valid transfer — the sender resolved as the current
user, the recipient found by phone or email, and the submission accepted —
the sender is debited and the recipient credited by exactly amountGrams,
so the sum of the two gold balances is conserved. -/
theorem transfer_conserves_gold (s : AppState) (sender rcp : User)
    (rid : String) (amt : ℚ) (now : ℕ) (s' : AppState)
    (hs : findUser s.users sender.id = some sender)
    (hr : findRecipient s.users rid sender.id = some rcp)
    (hrid : findUser s.users rcp.id = some rcp)
    (hok : transferModalSubmit s sender rid amt now = Except.ok s') :
    goldOf s'.users sender.id = goldOf s.users sender.id - amt ∧
    goldOf s'.users rcp.id = goldOf s.users rcp.id + amt ∧
    goldOf s'.users sender.id + goldOf s'.users rcp.id
      = goldOf s.users sender.id + goldOf s.users rcp.id := by
  rcases transferModalSubmit_ok hok with ⟨hpos, hle, rcp', hr', heq⟩
  rw [hr] at hr'
  have hrr : rcp' = rcp := ((Option.some.injEq _ _).mp hr').symm
  subst hrr
  subst heq
  have hne : rcp'.id ≠ sender.id := findRecipient_ne hr
  have husers : (handleTransfer s sender.id rcp'.id amt now).users
      = setUser (setUser s.users sender.id
            { sender with goldBalance := sender.goldBalance - amt })
          rcp'.id { rcp' with goldBalance := rcp'.goldBalance + amt } := by
    unfold handleTransfer
    rw [hs, hrid]
  have e1 : goldOf (handleTransfer s sender.id rcp'.id amt now).users sender.id
      = sender.goldBalance - amt := by
    rw [husers]
    rw [goldOf_setUser_other
      { rcp' with goldBalance := rcp'.goldBalance + amt } (Ne.symm hne) rfl]
    exact goldOf_setUser_self _ rfl hs
  have e2 : goldOf (handleTransfer s sender.id rcp'.id amt now).users rcp'.id
      = rcp'.goldBalance + amt := by
    rw [husers]
    have hfu : findUser (setUser s.users sender.id
        { sender with goldBalance := sender.goldBalance - amt }) rcp'.id
        = some rcp' := by
      rw [findUser_setUser_other
        { sender with goldBalance := sender.goldBalance - amt } hne rfl]
      exact hrid
    exact goldOf_setUser_self _ rfl hfu
  rw [e1, e2, goldOf_eq hs, goldOf_eq hrid]
  exact ⟨rfl, rfl, by ring⟩

/-- Witness: Abebe transfers 1 g to Fatuma (found by phone) from the
seeded state; the debit, the credit and conservation all hold. -/
theorem transfer_conserves_gold_witness :
    goldOf (handleTransfer seededState "usr_1" "usr_2" 1 999).users "usr_1"
      = goldOf seededState.users "usr_1" - 1 ∧
    goldOf (handleTransfer seededState "usr_1" "usr_2" 1 999).users "usr_2"
      = goldOf seededState.users "usr_2" + 1 ∧
    goldOf (handleTransfer seededState "usr_1" "usr_2" 1 999).users "usr_1"
        + goldOf (handleTransfer seededState "usr_1" "usr_2" 1 999).users "usr_2"
      = goldOf seededState.users "usr_1" + goldOf seededState.users "usr_2" :=
  transfer_conserves_gold seededState abebe fatuma "+251923456789" 1 999
    (handleTransfer seededState "usr_1" "usr_2" 1 999)
    (by decide) (by decide) (by decide) (by rfl)

/-- C4: a transfer whose recipient identifier matches no other user, or
whose amount is non-positive, or whose amount exceeds the sender's gold
balance, fails with a ValidationError, and the operation leaves the whole
state (balances and transactions) unchanged. -/
theorem transfer_invalid_rejected (s : AppState) (uid rid : String) (user : User)
    (amt : ℚ) (now : ℕ)
    (hu : findUser s.users uid = some user)
    (hbad : findRecipient s.users rid user.id = none ∨ amt ≤ 0 ∨
      user.goldBalance < amt) :
    (∃ msg, transferModalSubmit s user rid amt now
        = Except.error (LedgerError.validationError msg)) ∧
    step s (Op.transfer uid rid amt now) = s := by
  have herr : ∃ msg, transferModalSubmit s user rid amt now
      = Except.error (LedgerError.validationError msg) := by
    unfold transferModalSubmit
    by_cases h1 : rid = "" ∨ amt ≤ 0
    · rw [if_pos h1]
      exact ⟨_, rfl⟩
    · rw [if_neg h1]
      by_cases h2 : amt > user.goldBalance
      · rw [if_pos h2]
        exact ⟨_, rfl⟩
      · rw [if_neg h2]
        rcases hbad with hb | hb | hb
        · rw [hb]
          exact ⟨_, rfl⟩
        · exact absurd (Or.inr hb) h1
        · exact absurd hb h2
  refine ⟨herr, ?_⟩
  rcases herr with ⟨msg, hmsg⟩
  simp only [step, hu, hmsg]

/-- Witness: Abebe holds 5.75 g and submits a transfer of 100 g; the
operation is rejected and the seeded state is unchanged. -/
theorem transfer_invalid_rejected_witness :
    step seededState (Op.transfer "usr_1" "+251923456789" 100 7) = seededState :=
  (transfer_invalid_rejected seededState "usr_1" "+251923456789" abebe 100 7
    (by decide) (Or.inr (Or.inr (by decide)))).2

/-- C5: a loan request with 0 < amountETB ≤ goldBalance * livePrice *
LOAN_TO_VALUE_RATIO immediately (status completed, no pending state)
debits (amountETB / livePrice) / LOAN_TO_VALUE_RATIO grams of collateral,
credits amountETB * (1 - LOAN_COMMISSION_RATE) to etbBalance, and records
a completed loan transaction carrying the collateral grams and the gross
ETB amount; a request with amountETB ≤ 0 or above the maximum fails with
a ValidationError and no state change. -/
theorem loan_behavior (s : AppState) (uid : String) (user : User)
    (livePrice etbAmount : ℚ) (now : ℕ)
    (hu : findUser s.users uid = some user) :
    ((0 < etbAmount ∧
        etbAmount ≤ user.goldBalance * livePrice * LOAN_TO_VALUE_RATIO) →
      goldOf (step s (Op.loan uid livePrice etbAmount now)).users uid
          = user.goldBalance - (etbAmount / livePrice) / LOAN_TO_VALUE_RATIO ∧
      etbOf (step s (Op.loan uid livePrice etbAmount now)).users uid
          = user.etbBalance + etbAmount * (1 - LOAN_COMMISSION_RATE) ∧
      ({ id := mkTxId now, date := now, type := TxType.loan,
         amountGrams := (etbAmount / livePrice) / LOAN_TO_VALUE_RATIO,
         amountETB := some etbAmount, fromName := none, toName := none,
         status := TxStatus.completed, userId := uid } : Transaction)
        ∈ (step s (Op.loan uid livePrice etbAmount now)).transactions) ∧
    ((etbAmount ≤ 0 ∨
        user.goldBalance * livePrice * LOAN_TO_VALUE_RATIO < etbAmount) →
      (∃ msg, loanModalSubmit s user livePrice etbAmount now
          = Except.error (LedgerError.validationError msg)) ∧
      step s (Op.loan uid livePrice etbAmount now) = s) := by
  have huid := findUser_id hu
  subst huid
  constructor
  · rintro ⟨hpos, hmax⟩
    have hok : loanModalSubmit s user livePrice etbAmount now
        = Except.ok (handleLoan s user.id
            ((etbAmount / livePrice) / LOAN_TO_VALUE_RATIO) etbAmount now) := by
      simp only [loanModalSubmit]
      rw [if_neg (not_le.mpr hpos), if_neg (not_lt.mpr hmax)]
    have hstep : step s (Op.loan user.id livePrice etbAmount now)
        = handleLoan s user.id
            ((etbAmount / livePrice) / LOAN_TO_VALUE_RATIO) etbAmount now := by
      simp only [step, hu, hok]
    have hinner : findUser (setUser s.users user.id
        { user with
            goldBalance :=
              user.goldBalance - (etbAmount / livePrice) / LOAN_TO_VALUE_RATIO,
            etbBalance :=
              user.etbBalance + etbAmount * (1 - LOAN_COMMISSION_RATE) }) user.id
        = some { user with
            goldBalance :=
              user.goldBalance - (etbAmount / livePrice) / LOAN_TO_VALUE_RATIO,
            etbBalance :=
              user.etbBalance + etbAmount * (1 - LOAN_COMMISSION_RATE) } :=
      findUser_setUser_self _ rfl hu
    have hL : handleLoan s user.id
        ((etbAmount / livePrice) / LOAN_TO_VALUE_RATIO) etbAmount now
        = { users := setUser s.users user.id
              { user with
                  goldBalance :=
                    user.goldBalance - (etbAmount / livePrice) / LOAN_TO_VALUE_RATIO,
                  etbBalance :=
                    user.etbBalance + etbAmount * (1 - LOAN_COMMISSION_RATE) },
            transactions := sortByDateDesc
              ({ id := mkTxId now, date := now, type := TxType.loan,
                 amountGrams := (etbAmount / livePrice) / LOAN_TO_VALUE_RATIO,
                 amountETB := some etbAmount, fromName := none, toName := none,
                 status := TxStatus.completed, userId := user.id } ::
                s.transactions) } := by
      simp only [handleLoan, handleNewTransaction, hu, hinner]
    rw [hstep, hL]
    refine ⟨?_, ?_, ?_⟩
    · exact goldOf_setUser_self _ rfl hu
    · exact etbOf_setUser_self _ rfl hu
    · exact mem_sortByDateDesc.mpr (List.mem_cons_self _ _)
  · intro hbad
    have herr : ∃ msg, loanModalSubmit s user livePrice etbAmount now
        = Except.error (LedgerError.validationError msg) := by
      simp only [loanModalSubmit]
      rcases hbad with hb | hb
      · rw [if_pos hb]
        exact ⟨_, rfl⟩
      · by_cases h1 : etbAmount ≤ 0
        · rw [if_pos h1]
          exact ⟨_, rfl⟩
        · rw [if_neg h1, if_pos hb]
          exact ⟨_, rfl⟩
    rcases herr with ⟨msg, hmsg⟩
    exact ⟨⟨msg, hmsg⟩, by simp only [step, hu, hmsg]⟩

/-- Witness: the loan arithmetic example of the specification, run on
Fatuma (12.25 g) at a price of 8000 ETB/g for 20000 ETB, plus a rejected
request of -3 ETB leaving the state unchanged. -/
theorem loan_behavior_witness :
    (goldOf (step seededState (Op.loan "usr_2" 8000 20000 5)).users "usr_2"
        = fatuma.goldBalance - (20000 / 8000) / LOAN_TO_VALUE_RATIO ∧
      etbOf (step seededState (Op.loan "usr_2" 8000 20000 5)).users "usr_2"
        = fatuma.etbBalance + 20000 * (1 - LOAN_COMMISSION_RATE) ∧
      ({ id := mkTxId 5, date := 5, type := TxType.loan,
         amountGrams := (20000 / 8000) / LOAN_TO_VALUE_RATIO,
         amountETB := some 20000, fromName := none, toName := none,
         status := TxStatus.completed, userId := "usr_2" } : Transaction)
        ∈ (step seededState (Op.loan "usr_2" 8000 20000 5)).transactions) ∧
    step seededState (Op.loan "usr_2" 8000 (-3) 6) = seededState :=
  ⟨(loan_behavior seededState "usr_2" fatuma 8000 20000 5 (by decide)).1
      ⟨by norm_num, by norm_num [fatuma, LOAN_TO_VALUE_RATIO_eq]⟩,
   ((loan_behavior seededState "usr_2" fatuma 8000 (-3) 6 (by decide)).2
      (Or.inl (by norm_num))).2⟩

theorem handleApproval_findTx (s : AppState) (txId : String) (action : Decision)
    (tx : Transaction) (htx : findTx s.transactions txId = some tx) :
    findTx (handleApproval s txId action).transactions txId
      = some { tx with status :=
          if action = Decision.approve then TxStatus.completed else TxStatus.failed } := by
  have hg : ∀ t : Transaction,
      ((fun t => if t.id == txId then
          { t with status :=
              if action = Decision.approve then TxStatus.completed else TxStatus.failed }
        else t) t).id = t.id := by
    intro t
    by_cases hc : (t.id == txId) = true
    · simp [hc]
    · simp [hc]
  unfold handleApproval
  rw [htx]
  dsimp only
  rw [findTx_map _ hg, htx]
  have htid : (tx.id == txId) = true := by
    rw [findTx_id htx]
    exact beq_self_eq_true txId
  simp only [Option.map_some']
  rw [if_pos htid]

theorem handleApproval_users_reject (s : AppState) (txId : String) :
    (handleApproval s txId Decision.reject).users = s.users := by
  unfold handleApproval
  cases h : findTx s.transactions txId with
  | none => rfl
  | some tx => rfl

theorem handleApproval_users_approve_withdrawal (s : AppState) (txId : String)
    (tx : Transaction) (owner : User)
    (htx : findTx s.transactions txId = some tx) (hty : tx.type = TxType.withdrawal)
    (howner : findUser s.users tx.userId = some owner) :
    (handleApproval s txId Decision.approve).users
      = setUser s.users owner.id
          { owner with goldBalance := owner.goldBalance - tx.amountGrams } := by
  unfold handleApproval
  rw [htx]
  dsimp only
  rw [if_pos rfl, howner, hty]

/-- C6: a withdrawal request with 0 < amountGrams ≤ goldBalance creates a
pending withdrawal transaction and changes no balance; approving a
withdrawal debits its owner's goldBalance by amountGrams and marks the
transaction completed; rejecting it leaves every balance untouched and
marks it failed. -/
theorem withdrawal_lifecycle (s : AppState) (uid : String) (user : User)
    (amt : ℚ) (now : ℕ)
    (hu : findUser s.users uid = some user)
    (hpos : 0 < amt) (hle : amt ≤ user.goldBalance)
    (hfresh : ∀ t ∈ s.transactions, t.id ≠ mkTxId now) :
    ((step s (Op.withdraw uid amt now)).users = s.users ∧
      findTx (step s (Op.withdraw uid amt now)).transactions (mkTxId now)
        = some { id := mkTxId now, date := now, type := TxType.withdrawal,
                 amountGrams := amt, amountETB := none, fromName := none,
                 toName := none, status := TxStatus.pending, userId := uid }) ∧
    (∀ (s₂ : AppState) (txId : String) (tx : Transaction) (owner : User),
      findTx s₂.transactions txId = some tx → tx.type = TxType.withdrawal →
      findUser s₂.users tx.userId = some owner →
      goldOf (handleApproval s₂ txId Decision.approve).users tx.userId
          = owner.goldBalance - tx.amountGrams ∧
      findTx (handleApproval s₂ txId Decision.approve).transactions txId
          = some { tx with status := TxStatus.completed }) ∧
    (∀ (s₂ : AppState) (txId : String) (tx : Transaction),
      findTx s₂.transactions txId = some tx →
      (handleApproval s₂ txId Decision.reject).users = s₂.users ∧
      findTx (handleApproval s₂ txId Decision.reject).transactions txId
          = some { tx with status := TxStatus.failed }) := by
  have huid := findUser_id hu
  subst huid
  have hok : withdrawModalSubmit s user amt now
      = Except.ok (handleWithdraw s user.id amt now) := by
    unfold withdrawModalSubmit
    rw [if_neg (not_le.mpr hpos), if_neg (not_lt.mpr hle)]
  have hstep : step s (Op.withdraw user.id amt now)
      = { s with transactions := sortByDateDesc
                   ({ id := mkTxId now, date := now, type := TxType.withdrawal,
                      amountGrams := amt, amountETB := none, fromName := none,
                      toName := none, status := TxStatus.pending,
                      userId := user.id } :: s.transactions) } := by
    simp only [step, hu, hok, handleWithdraw, handleNewTransaction]
  refine ⟨⟨?_, ?_⟩, ?_, ?_⟩
  · rw [hstep]
  · rw [hstep]
    apply findTx_eq_some_of_unique
    · exact mem_sortByDateDesc.mpr (List.mem_cons_self _ _)
    · rfl
    · intro t' ht' hid'
      rcases List.mem_cons.mp (mem_sortByDateDesc.mp ht') with h | h
      · exact h
      · exact absurd hid' (hfresh t' h)
  · intro s₂ txId tx owner htx hty howner
    constructor
    · rw [handleApproval_users_approve_withdrawal s₂ txId tx owner htx hty howner]
      have hoid := findUser_id howner
      rw [hoid]
      exact goldOf_setUser_self _ rfl howner
    · rw [handleApproval_findTx s₂ txId Decision.approve tx htx]
      rfl
  · intro s₂ txId tx htx
    constructor
    · exact handleApproval_users_reject s₂ txId
    · rw [handleApproval_findTx s₂ txId Decision.reject tx htx]
      rfl

/-- Witness: Abebe requests a 2 g withdrawal at time 42 from the seeded
state; no balance changes and the pending record exists; approving it
right away debits 2 g and completes it; rejecting it instead leaves the
balance and marks it failed. -/
theorem withdrawal_lifecycle_witness :
    ((step seededState (Op.withdraw "usr_1" 2 42)).users = seededState.users ∧
      findTx (step seededState (Op.withdraw "usr_1" 2 42)).transactions (mkTxId 42)
        = some { id := mkTxId 42, date := 42, type := TxType.withdrawal,
                 amountGrams := 2, amountETB := none, fromName := none,
                 toName := none, status := TxStatus.pending, userId := "usr_1" }) ∧
    goldOf (handleApproval (step seededState (Op.withdraw "usr_1" 2 42))
        "tx_42" Decision.approve).users "usr_1"
      = abebe.goldBalance - 2 ∧
    (handleApproval (step seededState (Op.withdraw "usr_1" 2 42))
        "tx_42" Decision.reject).users
      = (step seededState (Op.withdraw "usr_1" 2 42)).users :=
  ⟨(withdrawal_lifecycle seededState "usr_1" abebe 2 42
      (by decide) (by decide) (by decide) (by decide)).1,
   ((withdrawal_lifecycle seededState "usr_1" abebe 2 42
      (by decide) (by decide) (by decide) (by decide)).2.1
      (step seededState (Op.withdraw "usr_1" 2 42)) "tx_42"
      { id := "tx_42", date := 42, type := TxType.withdrawal,
        amountGrams := 2, amountETB := none, fromName := none,
        toName := none, status := TxStatus.pending, userId := "usr_1" } abebe
      (by decide) rfl (by decide)).1,
   (((withdrawal_lifecycle seededState "usr_1" abebe 2 42
      (by decide) (by decide) (by decide) (by decide)).2.2
      (step seededState (Op.withdraw "usr_1" 2 42)) "tx_42"
      { id := "tx_42", date := 42, type := TxType.withdrawal,
        amountGrams := 2, amountETB := none, fromName := none,
        toName := none, status := TxStatus.pending, userId := "usr_1" }
      (by decide)).1)⟩

theorem mkTxId_out_ne_in (now : ℕ) : mkTxId now ++ "_out" ≠ mkTxId now ++ "_in" := by
  intro hEq
  have hlen := congrArg String.length hEq
  rw [String.length_append, String.length_append] at hlen
  have h4 : ("_out" : String).length = 4 := rfl
  have h3 : ("_in" : String).length = 3 := rfl
  rw [h4, h3] at hlen
  omega

/-- C7 (counterexample): the from/to display names of a linked transfer
pair are not swapped between the two records: for the concrete transfer of
1 g from Abebe to Fatuma, the transfer_out record's from differs from the
transfer_in record's to, and the out record's to differs from the in
record's from — both records carry from = sender, to = recipient. -/
theorem transfer_pair_not_swapped_counterexample :
    (findTx (step seededState (Op.transfer "usr_1" "+251923456789" 1 999)).transactions
        "tx_999_out").map Transaction.fromName
      ≠ (findTx (step seededState (Op.transfer "usr_1" "+251923456789" 1 999)).transactions
        "tx_999_in").map Transaction.toName ∧
    (findTx (step seededState (Op.transfer "usr_1" "+251923456789" 1 999)).transactions
        "tx_999_out").map Transaction.toName
      ≠ (findTx (step seededState (Op.transfer "usr_1" "+251923456789" 1 999)).transactions
        "tx_999_in").map Transaction.fromName := by
  constructor
  · decide
  · decide

/-- C7 (amended): every successful transfer creates exactly one
transfer_out record for the sender and one transfer_in record for the
recipient — the new list is a permutation of the two new records consed
onto the old list — with distinct ids, equal amountGrams, status
completed, and identical (not swapped) display fields: both records carry
from = sender's name and to = recipient's name. -/
theorem transfer_pair_linkage (s : AppState) (sender rcp : User) (rid : String)
    (amt : ℚ) (now : ℕ) (s' : AppState)
    (hs : findUser s.users sender.id = some sender)
    (hr : findRecipient s.users rid sender.id = some rcp)
    (hrid : findUser s.users rcp.id = some rcp)
    (hok : transferModalSubmit s sender rid amt now = Except.ok s') :
    List.Perm s'.transactions
      (transferOutTx sender rcp amt now :: transferInTx sender rcp amt now ::
        s.transactions) ∧
    (transferOutTx sender rcp amt now).id ≠ (transferInTx sender rcp amt now).id ∧
    (transferOutTx sender rcp amt now).amountGrams = amt ∧
    (transferInTx sender rcp amt now).amountGrams = amt ∧
    (transferOutTx sender rcp amt now).status = TxStatus.completed ∧
    (transferInTx sender rcp amt now).status = TxStatus.completed ∧
    (transferOutTx sender rcp amt now).userId = sender.id ∧
    (transferInTx sender rcp amt now).userId = rcp.id ∧
    (transferOutTx sender rcp amt now).fromName = some sender.name ∧
    (transferInTx sender rcp amt now).fromName = some sender.name ∧
    (transferOutTx sender rcp amt now).toName = some rcp.name ∧
    (transferInTx sender rcp amt now).toName = some rcp.name := by
  rcases transferModalSubmit_ok hok with ⟨hpos, hle, rcp', hr', heq⟩
  rw [hr] at hr'
  have hrr : rcp' = rcp := ((Option.some.injEq _ _).mp hr').symm
  subst hrr
  subst heq
  have htxs : (handleTransfer s sender.id rcp'.id amt now).transactions
      = sortByDateDesc (transferOutTx sender rcp' amt now ::
          transferInTx sender rcp' amt now :: s.transactions) := by
    unfold handleTransfer
    rw [hs, hrid]
  refine ⟨?_, mkTxId_out_ne_in now, rfl, rfl, rfl, rfl, rfl, rfl, rfl, rfl, rfl, rfl⟩
  rw [htxs]
  exact sortByDateDesc_perm _

/-- Witness: the concrete transfer of 1 g from Abebe to Fatuma produces
the linked pair with distinct ids, equal amounts, completed status and
identical display fields. -/
theorem transfer_pair_linkage_witness :
    List.Perm (handleTransfer seededState "usr_1" "usr_2" 1 888).transactions
      (transferOutTx abebe fatuma 1 888 :: transferInTx abebe fatuma 1 888 ::
        seededState.transactions) ∧
    (transferOutTx abebe fatuma 1 888).id ≠ (transferInTx abebe fatuma 1 888).id ∧
    (transferOutTx abebe fatuma 1 888).amountGrams = 1 ∧
    (transferInTx abebe fatuma 1 888).amountGrams = 1 ∧
    (transferOutTx abebe fatuma 1 888).status = TxStatus.completed ∧
    (transferInTx abebe fatuma 1 888).status = TxStatus.completed ∧
    (transferOutTx abebe fatuma 1 888).userId = "usr_1" ∧
    (transferInTx abebe fatuma 1 888).userId = "usr_2" ∧
    (transferOutTx abebe fatuma 1 888).fromName = some "Abebe Bikila" ∧
    (transferInTx abebe fatuma 1 888).fromName = some "Abebe Bikila" ∧
    (transferOutTx abebe fatuma 1 888).toName = some "Fatuma Roba" ∧
    (transferInTx abebe fatuma 1 888).toName = some "Fatuma Roba" :=
  transfer_pair_linkage seededState abebe fatuma "+251923456789" 1 888
    (handleTransfer seededState "usr_1" "usr_2" 1 888)
    (by decide) (by decide) (by decide) (by rfl)

theorem reachablePrice_ge_floor {p : ℚ} (hp : ReachablePrice p) : 7800 ≤ p := by
  induction hp with
  | base => norm_num [BASE_GOLD_PRICE_ETB]
  | tick p r hp h0 h1 => exact le_max_left _ _

/-- C8: every tick of the price feed computes max(7800, old + delta) for
some delta in [-5, 5] (namely (r - 0.5) * 10 for the drawn r in [0, 1));
consequently every price reachable from the base price stays at or above
the 7800 floor after each tick, and a single tick never moves the price
up by more than 5. -/
theorem price_feed_behavior (p r : ℚ) (hp : ReachablePrice p)
    (h0 : 0 ≤ r) (h1 : r < 1) :
    (∃ δ, -5 ≤ δ ∧ δ ≤ 5 ∧ priceTick p r = max 7800 (p + δ)) ∧
    7800 ≤ priceTick p r ∧ priceTick p r ≤ p + 5 := by
  have hfloor := reachablePrice_ge_floor hp
  refine ⟨⟨(r - 0.5) * 10, by nlinarith, by nlinarith, rfl⟩,
    le_max_left _ _, ?_⟩
  unfold priceTick
  apply max_le
  · linarith
  · nlinarith

/-- Witness: one tick from the base price with r = 1/2 stays at or above
the floor and rises by at most 5. -/
theorem price_feed_behavior_witness :
    7800 ≤ priceTick BASE_GOLD_PRICE_ETB (1 / 2) ∧
    priceTick BASE_GOLD_PRICE_ETB (1 / 2) ≤ BASE_GOLD_PRICE_ETB + 5 :=
  ⟨(price_feed_behavior BASE_GOLD_PRICE_ETB (1 / 2) ReachablePrice.base
      (by norm_num) (by norm_num)).2.1,
   (price_feed_behavior BASE_GOLD_PRICE_ETB (1 / 2) ReachablePrice.base
      (by norm_num) (by norm_num)).2.2⟩

end GoldenEquip
